import Mathlib

/-!
Verification development for a React view-model hook (`useModel`).

The source provides, for a caller-owned "original" data object:
  * a mutable Model Snapshot (`model`), derived from the original by a
    `JSON.parse(JSON.stringify ...)` deep clone,
  * a change-tracking `Proxy` over the snapshot (`createProxy`) with a
    per-proxy cache of child proxies (`getMap`),
  * a dirty check (`isDirty`) comparing the snapshot's serialization with
    the serialization of the original captured at derivation (`originalStr`),
  * a reset operation (`reset`) and field-scoped validation lookup
    (`findErrors`).

The embedding below follows the source function by function.  JavaScript
plain-JSON data is modelled by the inductive `Json` (object fields are an
ordered association list, since `JSON.stringify` is sensitive to property
insertion order).  `JSON.stringify` is modelled by `jstr`.  Reference
identity of JavaScript objects, where the source depends on it (`!==` in
the set trap, identity of child proxies), is modelled by natural-number
reference tags allocated from a monotone counter.
-/

set_option linter.unusedVariables false
set_option linter.unnecessarySeqFocus false

/-- Plain JSON data, the value domain of the model snapshot.  Object
fields are kept in insertion order, exactly as `JSON.stringify` sees
them. -/
inductive Json : Type
  | null
  | bool (b : Bool)
  | num (n : Int)
  | str (s : String)
  | arr (elems : List Json)
  | obj (fields : List (String × Json))

/-- One character of `JSON.stringify`'s string escaping (quote, backslash
and the common control characters; other characters pass through). -/
def escapeChar (c : Char) : String :=
  if c = '"' then "\\\""
  else if c = '\\' then "\\\\"
  else if c = '\n' then "\\n"
  else if c = '\t' then "\\t"
  else if c = '\r' then "\\r"
  else String.singleton c

/-- The escaping `JSON.stringify` applies to string content. -/
def escape (s : String) : String :=
  String.join (s.toList.map escapeChar)

mutual

/-- Model of `JSON.stringify` on plain JSON data: the canonical, insertion-order
sensitive serialization the source uses for `originalStr`, for `isDirty`
and inside the proxy. -/
def jstr : Json → String
  | .null => "null"
  | .bool true => "true"
  | .bool false => "false"
  | .num n => toString n
  | .str s => "\"" ++ escape s ++ "\""
  | .arr xs => "[" ++ String.intercalate "," (jstrList xs) ++ "]"
  | .obj fs => "\x7b" ++ String.intercalate "," (jstrFields fs) ++ "\x7d"

/-- Serialization of the elements of a JSON array. -/
def jstrList : List Json → List String
  | [] => []
  | x :: xs => jstr x :: jstrList xs

/-- Serialization of the fields of a JSON object, in insertion order. -/
def jstrFields : List (String × Json) → List String
  | [] => []
  | (k, v) :: fs => ("\"" ++ escape k ++ "\":" ++ jstr v) :: jstrFields fs

end

/-- A JavaScript data value as it may be *written* through the proxy or
contained in a written object: plain JSON atoms and composites, plus
`undefined` members and function members (tagged with a reference id).
`JSON.stringify` drops the latter two from objects and turns them into
`null` inside arrays, which is what `jsonify` below captures. -/
inductive JValue : Type
  | vnull
  | vbool (b : Bool)
  | vnum (n : Int)
  | vstr (s : String)
  | vundefined
  | vfun (r : Nat)
  | varr (elems : List JValue)
  | vobj (fields : List (String × JValue))

mutual

/-- The value-level semantics of `JSON.parse(JSON.stringify v)`: the
plain-JSON normalization of a JavaScript value.  `none` means
`JSON.stringify` yields `undefined` (for `undefined` and functions),
so the value would be dropped from an enclosing object. -/
def jsonify : JValue → Option Json
  | .vnull => some .null
  | .vbool b => some (.bool b)
  | .vnum n => some (.num n)
  | .vstr s => some (.str s)
  | .vundefined => none
  | .vfun _ => none
  | .varr xs => some (.arr (jsonifyArr xs))
  | .vobj fs => some (.obj (jsonifyFields fs))

/-- Array elements: `undefined`/function elements serialize as `null`. -/
def jsonifyArr : List JValue → List Json
  | [] => []
  | x :: xs => ((jsonify x).getD .null) :: jsonifyArr xs

/-- Object fields: `undefined`/function members are dropped; insertion
order of the remaining fields is preserved. -/
def jsonifyFields : List (String × JValue) → List (String × Json)
  | [] => []
  | (k, v) :: fs =>
    match jsonify v with
    | some j => (k, j) :: jsonifyFields fs
    | none => jsonifyFields fs

end

/-- A JavaScript primitive value (the scalars the proxy's `get` trap
reports directly). -/
inductive Prim : Type
  | pnull
  | pbool (b : Bool)
  | pnum (n : Int)
  | pstr (s : String)
deriving DecidableEq

/-- The JSON form of a primitive. -/
def primJson : Prim → Json
  | .pnull => .null
  | .pbool b => .bool b
  | .pnum n => .num n
  | .pstr s => .str s

/-- Association-list lookup with JavaScript property semantics (first
matching key). -/
def alookup {α : Type} : List (String × α) → String → Option α
  | [], _ => none
  | (k1, v1) :: rest, k => if k1 = k then some v1 else alookup rest k

/-- JavaScript property assignment on an ordered property list: an
existing key keeps its position in insertion order, a new key is
appended at the end. -/
def upsert {α : Type} : List (String × α) → String → α → List (String × α)
  | [], k, v => [(k, v)]
  | (k1, v1) :: rest, k, v =>
    if k1 = k then (k, v) :: rest else (k1, v1) :: upsert rest k v

/-- JavaScript `delete target[key]` on an ordered property list. -/
def eraseKey {α : Type} : List (String × α) → String → List (String × α)
  | [], _ => []
  | (k1, v1) :: rest, k =>
    if k1 = k then eraseKey rest k else (k1, v1) :: eraseKey rest k

/-- The state of one `useModel` controller instance.  `originalRef` is the
reference identity of the caller-supplied original, `originalContent` its
JSON content; `origCaptured` is the content whose serialization the
`originalStr` memo currently holds (captured when the original's
reference last changed).  `resetId`, `refreshId` and `counter` embed the
two `useState` indicators fed from the module-level `counter`.  `model`
is the content of the Model Snapshot (mutated in place by proxy writes).
`rederived` records whether the last render re-derived the snapshot from
`originalStr` (the `useMemo` for `model` recomputed). -/
structure CState where
  originalRef : Nat
  originalContent : Json
  origCaptured : Json
  resetId : Nat
  refreshId : Nat
  counter : Nat
  model : Json
  rederived : Bool

/-- The memo `originalStr`, i.e. `JSON.stringify` of `original` (with the
`|| ...` fallback to an empty object for a missing original, excluded
here by the caller contract): the serialization of the content captured
at the last change of the original's reference. -/
def originalStr (s : CState) : String :=
  jstr s.origCaptured

/-- Model of `JSON.parse(JSON.stringify j)` on plain JSON data: a deep clone.  The
clone is content-identical to `j` (`JSON.parse` and `JSON.stringify` both
preserve property insertion order), so on the content level it is the
identity; only the object references are fresh, which `Json` does not
track. -/
def jsonClone (j : Json) : Json := j

/-- One render pass of the hook body: recomputes the `originalStr` and
`model` memos against their previous dependency values, exactly as
`React.useMemo` does.  `prev` holds the memo results and dependency
values of the previous render, `now` the incoming state (new props and
`useState` values, and the possibly in-place-mutated snapshot).

* `originalStr` has dependency list `[original]`, so it recomputes iff
  the original's reference changed.
* `model` has dependency list `[originalStr, original, resetId]`; when
  one of them changed it recomputes `JSON.parse(originalStr)` (the
  boolean guard `(!resetId || !original || true) &&` in the source is
  identically true and only references the dependencies). -/
def render (prev now : CState) : CState :=
  let refChanged := now.originalRef != prev.originalRef
  let origC := if refChanged then now.originalContent else prev.origCaptured
  let deps :=
    (jstr origC != jstr prev.origCaptured) || refChanged ||
      (now.resetId != prev.resetId)
  { now with
    origCaptured := origC
    model := if deps then jsonClone origC else now.model
    rederived := deps }

/-- The externally triggered events of one controller instance:
* `rerender` — a render with nothing changed (e.g. the parent re-renders);
* `reset` — the control's `reset()` was called (`setResetId(++counter)`);
* `refreshWrite m` — an effective write through the proxy hierarchy: the
  snapshot was mutated in place to content `m` and `refresh()` ran
  (`setRefreshId(++counter)`);
* `swapOriginal r c` — the caller passed an original with reference `r`
  and content `c` (a reference change when `r` differs). -/
inductive Ev : Type
  | rerender
  | reset
  | refreshWrite (m : Json)
  | swapOriginal (r : Nat) (c : Json)

/-- The controller's reaction to one event: update `useState` values /
props, then render. -/
def step (s : CState) (e : Ev) : CState :=
  match e with
  | .rerender => render s s
  | .reset => render s { s with counter := s.counter + 1, resetId := s.counter + 1 }
  | .refreshWrite m =>
      render s { s with counter := s.counter + 1, refreshId := s.counter + 1, model := m }
  | .swapOriginal r c => render s { s with originalRef := r, originalContent := c }

/-- Mounting the hook: both indicators are drawn from the counter, the
original is captured and the snapshot cloned from it. -/
def initC (c0 : Nat) (r : Nat) (c : Json) : CState :=
  { originalRef := r
    originalContent := c
    origCaptured := c
    resetId := c0 + 1
    refreshId := c0 + 2
    counter := c0 + 2
    model := jsonClone c
    rederived := true }

/-- The control's `isDirty()`: the source computes
`(!refreshId || true) && JSON.stringify(model) !== originalStr`. -/
def isDirty (s : CState) : Bool :=
  ((s.refreshId == 0) || true) && (jstr s.model != originalStr s)

/-- Reading one property of a JSON object (used to state that after a
reset every previously read value equals the original's value). -/
def jget (j : Json) (k : String) : Option Json :=
  match j with
  | .obj fs => alookup fs k
  | _ => none

/-- Structural invariant of a controller state: the `useState` values
were drawn from the counter, and — by the caller contract that the
original only changes as a whole, by reference — the captured content is
the current original's content. -/
def CInv (s : CState) : Prop :=
  s.resetId ≤ s.counter ∧ s.refreshId ≤ s.counter ∧ s.origCaptured = s.originalContent

/-- Events respecting the caller contract: an original passed with the
same reference has the same content (inner mutation of the original is
outside the contract; the source comments state it is not perceived). -/
def EvOK (s : CState) (e : Ev) : Prop :=
  match e with
  | .swapOriginal r c => r = s.originalRef → c = s.originalContent
  | _ => True

/-- A value stored in a slot of the proxied target: `undefined`, a
primitive, or an object/array with a reference tag `r` and plain JSON
content `c` (the snapshot's data is plain JSON by construction). -/
inductive SVal : Type
  | undefined
  | sprim (p : Prim)
  | sobj (r : Nat) (c : Json)

/-- A value written through the proxy's `set` trap: `undefined`, a
primitive, or an object/array reference with arbitrary JavaScript data
content (possibly containing `undefined`/function members, which the
serialize/deserialize round-trip normalizes away). -/
inductive WVal : Type
  | wundefined
  | wprim (p : Prim)
  | wobj (r : Nat) (c : JValue)

/-- A function-typed property of the target (e.g. an array mutator
reachable through the prototype): a reference tag and its semantics,
which maps the target's data slots and the argument list to the new data
slots and the call's result (`value.call(target, ...args)`). -/
structure FnEntry where
  r : Nat
  sem : List (String × SVal) → List WVal → List (String × SVal) × WVal

/-- The state of one proxy created by `createProxy`:
* `vals` — the target's own data properties, in insertion order;
* `fns` — the target's function-typed properties (not own enumerable
  data, so invisible to `JSON.stringify`);
* `getMap` — the per-proxy cache of child proxies;
* `nextId` — the allocator for fresh object identities (every `new
  Proxy(...)`, wrapper function and clone is a fresh JavaScript object);
* `refreshCount` — how often `refresh()` was fired. -/
structure PState where
  vals : List (String × SVal)
  fns : List (String × FnEntry)
  getMap : List (String × Nat)
  nextId : Nat
  refreshCount : Nat

/-- What a read through the `get` trap reports: `undefined`, `null`, a
scalar, a (cached or fresh) child proxy with its identity, or a fresh
wrapper function with its identity. -/
inductive GetResult : Type
  | undefR
  | nullR
  | scalar (p : Prim)
  | childProxy (id : Nat)
  | wrapper (id : Nat)
deriving DecidableEq

/-- The current value of `target[prop]` as seen by the `set` trap's
`!==` comparison: `undefined` for a missing property. -/
inductive Cur : Type
  | cundefined
  | cprim (p : Prim)
  | cobj (r : Nat)
  | cfun (r : Nat)
deriving DecidableEq

/-- The value `target[prop]` for the identity comparison in the `set` trap (own
data properties shadow function-typed ones). -/
def currentOf (s : PState) (prop : String) : Cur :=
  match alookup s.vals prop with
  | some .undefined => .cundefined
  | some (.sprim p) => .cprim p
  | some (.sobj r _) => .cobj r
  | none =>
    match alookup s.fns prop with
    | some fe => .cfun fe.r
    | none => .cundefined

/-- JavaScript `target[prop] === item` for a written value: value
equality on primitives (and `undefined`), reference equality on
objects; a function-typed current value never equals a written data
value. -/
def identEq (cur : Cur) (item : WVal) : Bool :=
  match cur, item with
  | .cundefined, .wundefined => true
  | .cprim p, .wprim q => decide (p = q)
  | .cobj r, .wobj r2 _ => decide (r = r2)
  | _, _ => false

/-- How many fresh object references the normalization of a written
value allocates (`JSON.parse` builds a new object for object-typed
values). -/
def allocCount : WVal → Nat
  | .wobj _ _ => 1
  | _ => 0

/-- The value stored by the `set` trap:
`item === undefined ? item : JSON.parse(JSON.stringify(item))`.
`undefined` is stored as-is; a primitive round-trips to itself; an
object is replaced by a fresh object holding its plain-JSON
normalization.  (`jsonify` of an object/array value is always `some`;
the `getD` default is never reached.) -/
def normalizeW (item : WVal) (fresh : Nat) : SVal :=
  match item with
  | .wundefined => .undefined
  | .wprim p => .sprim p
  | .wobj _ c => .sobj fresh ((jsonify c).getD .null)

/-- The `get` trap of `createProxy`:
1. a cached child proxy for the key is returned unconditionally;
2. otherwise the underlying value is read; `undefined`/`null` pass
   through;
3. an object-typed value is wrapped in a fresh child proxy which is
   cached under the key;
4. a function-typed value yields a fresh (uncached) wrapper function;
5. scalars are returned directly. -/
def getStep (s : PState) (prop : String) : GetResult × PState :=
  match alookup s.getMap prop with
  | some id => (.childProxy id, s)
  | none =>
    match alookup s.vals prop with
    | some .undefined => (.undefR, s)
    | some (.sprim .pnull) => (.nullR, s)
    | some (.sprim p) => (.scalar p, s)
    | some (.sobj _ _) =>
      (.childProxy s.nextId,
        { s with getMap := upsert s.getMap prop s.nextId, nextId := s.nextId + 1 })
    | none =>
      match alookup s.fns prop with
      | some _ => (.wrapper s.nextId, { s with nextId := s.nextId + 1 })
      | none => (.undefR, s)

/-- Model of `JSON.stringify(target)`: serializes the target's own data
properties in insertion order; `undefined`-valued properties and
function-typed properties are omitted. -/
def stringifyVals (vals : List (String × SVal)) : String :=
  jstr (.obj (vals.filterMap (fun kv =>
    match kv.2 with
    | .undefined => none
    | .sprim p => some (kv.1, primJson p)
    | .sobj _ c => some (kv.1, c))))

/-- The `set` trap of `createProxy`: if the new value is
reference-identical to the current one, nothing happens; otherwise the
cached child proxy for the key is dropped, the normalized value is
stored and `refresh()` fires.  The trap returns `true` in both cases. -/
def setStep (s : PState) (prop : String) (item : WVal) : PState × Bool :=
  if identEq (currentOf s prop) item then (s, true)
  else
    ({ s with
        getMap := eraseKey s.getMap prop
        vals := upsert s.vals prop (normalizeW item s.nextId)
        nextId := s.nextId + allocCount item
        refreshCount := s.refreshCount + 1 }, true)

/-- Invoking the wrapper returned for a function-typed property: take a
serialization snapshot of the target, call the original method against
the target with the given arguments, fire `refresh()` iff the post-call
serialization differs from the snapshot, and return the call's result.
The child-proxy cache is untouched. -/
def invokeFn (s : PState) (fe : FnEntry) (args : List WVal) : WVal × PState :=
  let before := stringifyVals s.vals
  let out := fe.sem s.vals args
  let s2 : PState := { s with vals := out.1 }
  if stringifyVals out.1 != before then
    (out.2, { s2 with refreshCount := s2.refreshCount + 1 })
  else
    (out.2, s2)

/-- All cached child-proxy identities were allocated from the counter
(they are strictly below `nextId`).  Holds for every reachable proxy
state. -/
def goodIds (l : List (String × Nat)) (n : Nat) : Bool :=
  l.all (fun kv => kv.2 < n)

/-- JavaScript `s.startsWith(pre)`, as prefix on the character
sequence. -/
def jsStartsWith (s pre : String) : Bool :=
  pre.toList.isPrefixOf s.toList

/-- One `fastest-validator` error record: a field path such as
`children[3].age` and a message.  A missing field is modelled by the
empty string (JavaScript falsy, as tested by `e.field &&`). -/
structure VError where
  field : String
  message : String
deriving DecidableEq

/-- The compiled validator's result: `true` (no errors) or the ordered
error list. -/
inductive VResult : Type
  | ok
  | errs (es : List VError)

/-- The control's `findErrors(prop)`, with the validator result
`all` passed in (the source recomputes it on every call):
* `all === true` yields `[]`;
* a falsy `prop` (omitted/`undefined` or the empty string) yields the
  whole list;
* otherwise the list is filtered to the entries whose truthy `field`
  equals `prop` or starts with `prop + "."` or `prop + "["`. -/
def findErrors (all : VResult) (prop : Option String) : List VError :=
  match all with
  | .ok => []
  | .errs es =>
    match prop with
    | none => es
    | some p =>
      if p = "" then es
      else
        es.filter (fun e =>
          (e.field != "") &&
            ((e.field == p) || jsStartsWith e.field (p ++ ".") ||
              jsStartsWith e.field (p ++ "[")))

/-- Modelled from the spec's words, for comparison with `findErrors`:
"returns the subsequence whose field equals `fieldPath` or starts with
`fieldPath + "."` or `fieldPath + "["`". -/
def findErrorsSpec (es : List VError) (p : String) : List VError :=
  es.filter (fun e =>
    (e.field == p) || jsStartsWith e.field (p ++ ".") || jsStartsWith e.field (p ++ "["))

theorem alookup_upsert_self {α : Type} (l : List (String × α)) (k : String) (v : α) :
    alookup (upsert l k v) k = some v := by
  induction l with
  | nil => simp [upsert, alookup]
  | cons h t ih =>
    obtain ⟨k1, v1⟩ := h
    by_cases hk : k1 = k
    · simp [upsert, hk, alookup]
    · simp [upsert, hk, alookup, ih]

theorem alookup_upsert_ne {α : Type} (l : List (String × α)) (k k' : String) (v : α)
    (h : k' ≠ k) : alookup (upsert l k v) k' = alookup l k' := by
  induction l with
  | nil => simp [upsert, alookup, Ne.symm h]
  | cons hd t ih =>
    obtain ⟨k1, v1⟩ := hd
    by_cases hk : k1 = k
    · simp [upsert, hk, alookup, Ne.symm h]
    · simp only [upsert, hk, if_false, alookup]
      by_cases hk' : k1 = k'
      · simp [hk']
      · simp [hk', ih]

theorem alookup_eraseKey_self {α : Type} (l : List (String × α)) (k : String) :
    alookup (eraseKey l k) k = none := by
  induction l with
  | nil => simp [eraseKey, alookup]
  | cons hd t ih =>
    obtain ⟨k1, v1⟩ := hd
    by_cases hk : k1 = k
    · simp [eraseKey, hk, ih]
    · simp [eraseKey, hk, alookup, ih]

theorem alookup_eraseKey_ne {α : Type} (l : List (String × α)) (k k' : String)
    (h : k' ≠ k) : alookup (eraseKey l k) k' = alookup l k' := by
  induction l with
  | nil => simp [eraseKey]
  | cons hd t ih =>
    obtain ⟨k1, v1⟩ := hd
    by_cases hk : k1 = k
    · simp [eraseKey, hk, alookup, Ne.symm h, ih]
    · simp only [eraseKey, hk, if_false, alookup]
      by_cases hk' : k1 = k'
      · simp [hk']
      · simp [hk', ih]

theorem goodIds_alookup (l : List (String × Nat)) (n : Nat) (k : String) (id : Nat)
    (hg : goodIds l n = true) (hl : alookup l k = some id) : id < n := by
  induction l with
  | nil => simp [alookup] at hl
  | cons hd t ih =>
    obtain ⟨k1, v1⟩ := hd
    rw [goodIds, List.all_cons, Bool.and_eq_true] at hg
    by_cases hk : k1 = k
    · subst hk
      simp [alookup] at hl
      subst hl
      simpa using hg.1
    · simp only [alookup, hk, if_false] at hl
      exact ih hg.2 hl

theorem CInv_step (s : CState) (e : Ev) (h : CInv s) (he : EvOK s e) :
    CInv (step s e) := by
  obtain ⟨h1, h2, h3⟩ := h
  cases e with
  | rerender =>
    refine ⟨?_, ?_, ?_⟩ <;> simp [step, render, h1, h2, h3]
  | reset =>
    refine ⟨?_, ?_, ?_⟩ <;> simp [step, render, h3] <;> omega
  | refreshWrite m =>
    refine ⟨?_, ?_, ?_⟩ <;> simp [step, render, h3] <;> omega
  | swapOriginal r c =>
    by_cases hr : r = s.originalRef
    · have hc : c = s.originalContent := he hr
      subst hr
      refine ⟨?_, ?_, ?_⟩ <;> simp [step, render, h1, h2, h3, hc]
    · refine ⟨?_, ?_, ?_⟩ <;> simp [step, render, h1, h2, bne_iff_ne, hr]

/-- Concrete fixture: an original with two fields in one insertion
order. -/
def c4origFields : List (String × Json) := [("a", Json.num 1), ("b", Json.num 2)]

/-- The same fields in the opposite insertion order. -/
def c4swapFields : List (String × Json) := [("b", Json.num 2), ("a", Json.num 1)]

/-- C1: for every controller state, `isDirty()` returns `true` iff the
canonical serialization of the current Model Snapshot differs from the
original's serialization captured at the current derivation
(`originalStr`); the `(!refreshId || true)` guard never changes the
outcome. -/
theorem isDirty_iff_model_ne_originalStr (s : CState) :
    isDirty s = true ↔ jstr s.model ≠ originalStr s := by
  simp [isDirty]

/-- C4 counterexample: the original is swapped for a reference-new
object whose fields are a permutation (identical content, different
insertion order, hence a different serialization) — and immediately
after the swap `isDirty()` reports `false`, because the snapshot is
re-derived from the new original, contradicting the claimed `true`. -/
theorem c4_swap_restores_clean :
    c4swapFields.Perm c4origFields ∧
    jstr (Json.obj c4swapFields) ≠ jstr (Json.obj c4origFields) ∧
    isDirty (step (initC 0 1 (Json.obj c4origFields))
        (Ev.swapOriginal 2 (Json.obj c4swapFields))) = false := by
  refine ⟨?_, by decide, by decide⟩
  unfold c4swapFields c4origFields
  exact List.Perm.swap _ _ _

/-- C4 (amended): when the original's reference changes — in particular
to a content-identical object with different key insertion order — the
Model Snapshot is immediately re-derived from the new original, so
`isDirty()` reports `false` right after the swap. -/
theorem swap_rederives_and_clean (s : CState) (r : Nat) (c : Json)
    (h : r ≠ s.originalRef) :
    (step s (Ev.swapOriginal r c)).rederived = true ∧
    (step s (Ev.swapOriginal r c)).model = c ∧
    isDirty (step s (Ev.swapOriginal r c)) = false := by
  refine ⟨?_, ?_, ?_⟩ <;>
    simp [step, render, isDirty, originalStr, jsonClone, bne_iff_ne, h]

/-- Witness for the amended C4 at the counterexample's input. -/
theorem swap_rederives_and_clean_w :
    (2 : Nat) ≠ (initC 0 1 (Json.obj c4origFields)).originalRef ∧
    ((step (initC 0 1 (Json.obj c4origFields))
        (Ev.swapOriginal 2 (Json.obj c4swapFields))).rederived = true ∧
      (step (initC 0 1 (Json.obj c4origFields))
        (Ev.swapOriginal 2 (Json.obj c4swapFields))).model = Json.obj c4swapFields ∧
      isDirty (step (initC 0 1 (Json.obj c4origFields))
        (Ev.swapOriginal 2 (Json.obj c4swapFields))) = false) :=
  ⟨by decide, swap_rederives_and_clean (initC 0 1 (Json.obj c4origFields)) 2
    (Json.obj c4swapFields) (by decide)⟩

/-- C9: the Model Snapshot is re-derived (fresh clone from the captured
original serialization) on exactly two triggers: an explicit `reset()`
request, and a change of the original's reference — the latter whatever
the new original's content, identical or not.  No other event (a plain
re-render, or a proxy write with its refresh notification) re-derives
it. -/
theorem rederived_iff_reset_or_refchange (s : CState) (e : Ev) (h : CInv s) :
    (step s e).rederived = true ↔
      (e = Ev.reset ∨ ∃ r c, e = Ev.swapOriginal r c ∧ r ≠ s.originalRef) := by
  obtain ⟨h1, h2, h3⟩ := h
  cases e with
  | rerender => simp [step, render]
  | reset =>
    simp only [step, render, bne_self_eq_false, Bool.or_false, Bool.false_or]
    simp [bne_iff_ne]
    omega
  | refreshWrite m => simp [step, render]
  | swapOriginal r c =>
    by_cases hr : r = s.originalRef
    · subst hr
      simp [step, render]
    · simp [step, render, bne_iff_ne, hr]

/-- Witness for C9: a content-identical swap with a new reference does
re-derive the snapshot. -/
theorem rederived_iff_reset_or_refchange_w :
    CInv (initC 0 1 (Json.obj c4origFields)) ∧
    ((step (initC 0 1 (Json.obj c4origFields))
        (Ev.swapOriginal 2 (Json.obj c4origFields))).rederived = true ↔
      (Ev.swapOriginal 2 (Json.obj c4origFields) = Ev.reset ∨
        ∃ r c, Ev.swapOriginal 2 (Json.obj c4origFields) = Ev.swapOriginal r c ∧
          r ≠ (initC 0 1 (Json.obj c4origFields)).originalRef)) :=
  ⟨⟨by decide, by decide, rfl⟩,
    rederived_iff_reset_or_refchange (initC 0 1 (Json.obj c4origFields))
      (Ev.swapOriginal 2 (Json.obj c4origFields)) ⟨by decide, by decide, rfl⟩⟩

/-- C8: whatever writes diverged the snapshot from the original,
`reset()` re-derives the snapshot from the original: right after the
reset the snapshot's content equals the original's content (a fresh
clone, not the original object itself), `isDirty()` is `false`, and
every readable property equals the original's property. -/
theorem reset_restores (s : CState) (h : CInv s) (hd : isDirty s = true) :
    (step s Ev.reset).model = s.originalContent ∧
    isDirty (step s Ev.reset) = false ∧
    (∀ k, jget (step s Ev.reset).model k = jget s.originalContent k) ∧
    (step s Ev.reset).rederived = true := by
  obtain ⟨h1, h2, h3⟩ := h
  have hne : s.counter + 1 ≠ s.resetId := by omega
  refine ⟨?_, ?_, ?_, ?_⟩ <;>
    simp [step, render, isDirty, originalStr, jsonClone, bne_iff_ne, hne, h3]

/-- Fixture: a controller created on `{a: 1}` whose snapshot was
diverged by a proxy write to `{a: 2}`. -/
def c8state : CState :=
  step (initC 0 1 (Json.obj [("a", Json.num 1)]))
    (Ev.refreshWrite (Json.obj [("a", Json.num 2)]))

/-- Witness for C8 at a concrete diverged state. -/
theorem reset_restores_w :
    CInv c8state ∧ isDirty c8state = true ∧
    ((step c8state Ev.reset).model = c8state.originalContent ∧
      isDirty (step c8state Ev.reset) = false ∧
      (∀ k, jget (step c8state Ev.reset).model k = jget c8state.originalContent k) ∧
      (step c8state Ev.reset).rederived = true) :=
  ⟨⟨by decide, by decide, rfl⟩, by decide,
    reset_restores c8state ⟨by decide, by decide, rfl⟩ (by decide)⟩

theorem isPrefixOf_nil (l : List Char) (h : l ≠ []) :
    l.isPrefixOf ([] : List Char) = false := by
  cases l with
  | nil => exact absurd rfl h
  | cons c cs => rfl

theorem jsStartsWith_empty (pre : String) (h : pre ≠ "") :
    jsStartsWith "" pre = false := by
  have hl : pre.toList ≠ [] := fun hnil => h (String.ext hnil)
  show pre.toList.isPrefixOf ("".toList) = false
  exact isPrefixOf_nil _ hl

theorem str_append_ne_empty (p q : String) (h : q ≠ "") : p ++ q ≠ "" := by
  intro he
  apply h
  have hd : (p ++ q).data = [] := by rw [he]
  rw [String.data_append] at hd
  exact String.ext (List.append_eq_nil.mp hd).2

/-- C3 counterexample: with a single error on field `name` and the
*supplied* field path `""`, `findErrors` returns the full error list
(the source tests JavaScript truthiness, so `""` behaves like an
omitted argument), while the subsequence described by the claim — field
equal to `""` or starting with `"."` or `"["` — is empty. -/
theorem c3_empty_path_not_filtered :
    findErrors (VResult.errs [⟨"name", "msg"⟩]) (some "") = [⟨"name", "msg"⟩] ∧
    findErrorsSpec [⟨"name", "msg"⟩] "" = [] := by
  exact ⟨by decide, by decide⟩

/-- C3 (amended): if the validator reports no errors `findErrors`
returns the empty list; with the argument omitted it returns the full
ordered error list; for every *non-empty* `fieldPath` it returns exactly
the subsequence of errors whose field equals `fieldPath` or starts with
`fieldPath + "."` or `fieldPath + "["`; the empty-string `fieldPath` is
treated like an omitted argument and returns the full list. -/
theorem findErrors_characterization :
    (∀ p, findErrors VResult.ok p = []) ∧
    (∀ es, findErrors (VResult.errs es) none = es) ∧
    (∀ es, findErrors (VResult.errs es) (some "") = es) ∧
    (∀ es p, p ≠ "" → findErrors (VResult.errs es) (some p) = findErrorsSpec es p) := by
  refine ⟨fun p => rfl, fun es => rfl, fun es => by simp [findErrors],
    fun es p hp => ?_⟩
  simp only [findErrors, findErrorsSpec, if_neg hp]
  apply List.filter_congr
  intro e _
  by_cases hf : e.field = ""
  · rw [hf]
    have h1 : (("" : String) == p) = false := beq_eq_false_iff_ne.mpr (Ne.symm hp)
    have h2 := jsStartsWith_empty (p ++ ".") (str_append_ne_empty p "." (by decide))
    have h3 := jsStartsWith_empty (p ++ "[") (str_append_ne_empty p "[" (by decide))
    simp [h1, h2, h3]
  · simp [bne_iff_ne, hf]

/-- Error list from the spec's field-path filtering example. -/
def demoErrors : List VError :=
  [⟨"name", "m1"⟩, ⟨"children[0].age", "m2"⟩, ⟨"children[1].age", "m3"⟩]

/-- Witness for the amended C3 at the spec's example: `children` selects
exactly the two indexed `children[...]` entries, `name` its single
entry, an omitted argument all three, `missing` none. -/
theorem findErrors_characterization_w :
    ("children" : String) ≠ "" ∧
    findErrors (VResult.errs demoErrors) (some "children") =
      findErrorsSpec demoErrors "children" ∧
    findErrors (VResult.errs demoErrors) (some "children") =
      [⟨"children[0].age", "m2"⟩, ⟨"children[1].age", "m3"⟩] ∧
    findErrors (VResult.errs demoErrors) (some "name") = [⟨"name", "m1"⟩] ∧
    findErrors (VResult.errs demoErrors) none = demoErrors ∧
    findErrors (VResult.errs demoErrors) (some "missing") = [] :=
  ⟨by decide, findErrors_characterization.2.2.2 demoErrors "children" (by decide),
    by decide, by decide, by decide, by decide⟩

theorem getStep_cached (s : PState) (prop : String) (id : Nat)
    (hm : alookup s.getMap prop = some id) :
    getStep s prop = (GetResult.childProxy id, s) := by
  simp [getStep, hm]

theorem getStep_objNew (s : PState) (prop : String) (r : Nat) (c : Json)
    (hm : alookup s.getMap prop = none)
    (hv : alookup s.vals prop = some (SVal.sobj r c)) :
    getStep s prop = (GetResult.childProxy s.nextId,
      { s with getMap := upsert s.getMap prop s.nextId, nextId := s.nextId + 1 }) := by
  simp [getStep, hm, hv]

theorem getStep_fn (s : PState) (prop : String) (fe : FnEntry)
    (hm : alookup s.getMap prop = none)
    (hv : alookup s.vals prop = none)
    (hf : alookup s.fns prop = some fe) :
    getStep s prop = (GetResult.wrapper s.nextId, { s with nextId := s.nextId + 1 }) := by
  simp [getStep, hm, hv, hf]

theorem setStep_effective (s : PState) (prop : String) (item : WVal)
    (h : identEq (currentOf s prop) item = false) :
    setStep s prop item =
      ({ s with
          getMap := eraseKey s.getMap prop
          vals := upsert s.vals prop (normalizeW item s.nextId)
          nextId := s.nextId + allocCount item
          refreshCount := s.refreshCount + 1 }, true) := by
  simp [setStep, h]

/-- C2: for an object-typed property, two consecutive reads through the
proxy with no intervening write return the same (reference-identical)
child proxy; after a write to that property of a value that is not
reference-identical to the current one (the only kind of write
obtainable through the exposed surface, since the proxy never leaks a
raw target reference — writes of the identical reference are the
separate no-op case), the next read returns a child proxy that is not
reference-identical to the pre-write one. -/
theorem child_proxy_identity (s : PState) (prop : String) (r : Nat) (c : Json)
    (r' : Nat) (c' : JValue)
    (hg : goodIds s.getMap s.nextId = true)
    (hv : alookup s.vals prop = some (SVal.sobj r c))
    (hne : r ≠ r') :
    (getStep s prop).1 = (getStep (getStep s prop).2 prop).1 ∧
    (getStep ((setStep (getStep (getStep s prop).2 prop).2 prop
        (WVal.wobj r' c')).1) prop).1 ≠ (getStep s prop).1 := by
  have hident : ∀ t : PState, t.vals = s.vals →
      identEq (currentOf t prop) (WVal.wobj r' c') = false := by
    intro t ht
    simp [currentOf, ht, hv, identEq, hne]
  cases hm : alookup s.getMap prop with
  | some id =>
    have hid : id < s.nextId := goodIds_alookup _ _ _ _ hg hm
    have hid1 : identEq (currentOf s prop) (WVal.wobj r' c') = false := hident s rfl
    simp only [getStep_cached s prop id hm]
    rw [setStep_effective s prop (WVal.wobj r' c') hid1]
    refine ⟨trivial, ?_⟩
    simp [getStep, alookup_eraseKey_self, alookup_upsert_self, normalizeW, allocCount]
    omega
  | none =>
    simp only [getStep_objNew s prop r c hm hv]
    have e2 : getStep
        { s with
            getMap := upsert s.getMap prop s.nextId
            nextId := s.nextId + 1 } prop =
        (GetResult.childProxy s.nextId,
          { s with
              getMap := upsert s.getMap prop s.nextId
              nextId := s.nextId + 1 }) :=
      getStep_cached _ prop s.nextId (by simp [alookup_upsert_self])
    simp only [e2]
    have hid1 : identEq (currentOf
        { s with
            getMap := upsert s.getMap prop s.nextId
            nextId := s.nextId + 1 } prop)
        (WVal.wobj r' c') = false := hident _ rfl
    rw [setStep_effective _ prop (WVal.wobj r' c') hid1]
    refine ⟨trivial, ?_⟩
    simp [getStep, alookup_eraseKey_self, alookup_upsert_self, normalizeW, allocCount]
    omega

/-- C5: an effective write through the proxy (value not
reference-identical to the current one) reports success, drops the
cached child proxy for exactly that key, stores the
serialize/deserialize round-trip normalization of the value
(`undefined` being the one exception, stored as-is — see `normalizeW`),
and fires the refresh notification once. -/
theorem set_effective_write (s : PState) (prop : String) (item : WVal)
    (h : identEq (currentOf s prop) item = false) :
    (setStep s prop item).2 = true ∧
    (setStep s prop item).1.vals = upsert s.vals prop (normalizeW item s.nextId) ∧
    alookup (setStep s prop item).1.getMap prop = none ∧
    (∀ k, k ≠ prop → alookup (setStep s prop item).1.getMap k = alookup s.getMap k) ∧
    (setStep s prop item).1.refreshCount = s.refreshCount + 1 ∧
    (setStep s prop item).1.fns = s.fns := by
  rw [setStep_effective s prop item h]
  refine ⟨rfl, rfl, alookup_eraseKey_self _ _, ?_, rfl, rfl⟩
  intro k hk
  exact alookup_eraseKey_ne _ _ _ hk

/-- Fixture: a proxy over a target with one object-typed property
`kid` (reference 0) and one scalar property `n`. -/
def p2state : PState :=
  { vals := [("kid", SVal.sobj 0 (Json.obj [])), ("n", SVal.sprim (Prim.pnum 7))]
    fns := []
    getMap := []
    nextId := 1
    refreshCount := 0 }

/-- Witness for C2 on a concrete proxy state. -/
theorem child_proxy_identity_w :
    goodIds p2state.getMap p2state.nextId = true ∧
    alookup p2state.vals "kid" = some (SVal.sobj 0 (Json.obj [])) ∧
    (0 : Nat) ≠ 99 ∧
    ((getStep p2state "kid").1 = (getStep (getStep p2state "kid").2 "kid").1 ∧
      (getStep ((setStep (getStep (getStep p2state "kid").2 "kid").2 "kid"
          (WVal.wobj 99 (JValue.vobj []))).1) "kid").1 ≠ (getStep p2state "kid").1) :=
  ⟨by decide, rfl, by decide,
    child_proxy_identity p2state "kid" 0 (Json.obj []) 99 (JValue.vobj [])
      (by decide) rfl (by decide)⟩

/-- Witness for C5: writing an object containing an `undefined` member
and a function member over the scalar property `n`. -/
theorem set_effective_write_w :
    identEq (currentOf p2state "n")
      (WVal.wobj 40 (JValue.vobj [("a", JValue.vnum 1), ("u", JValue.vundefined),
        ("f", JValue.vfun 41)])) = false ∧
    ((setStep p2state "n" (WVal.wobj 40 (JValue.vobj [("a", JValue.vnum 1),
        ("u", JValue.vundefined), ("f", JValue.vfun 41)]))).2 = true ∧
      (setStep p2state "n" (WVal.wobj 40 (JValue.vobj [("a", JValue.vnum 1),
        ("u", JValue.vundefined), ("f", JValue.vfun 41)]))).1.vals =
        upsert p2state.vals "n" (normalizeW (WVal.wobj 40 (JValue.vobj
          [("a", JValue.vnum 1), ("u", JValue.vundefined), ("f", JValue.vfun 41)]))
          p2state.nextId) ∧
      alookup (setStep p2state "n" (WVal.wobj 40 (JValue.vobj [("a", JValue.vnum 1),
        ("u", JValue.vundefined), ("f", JValue.vfun 41)]))).1.getMap "n" = none ∧
      (∀ k, k ≠ "n" → alookup (setStep p2state "n" (WVal.wobj 40 (JValue.vobj
        [("a", JValue.vnum 1), ("u", JValue.vundefined), ("f", JValue.vfun 41)]))).1.getMap k =
          alookup p2state.getMap k) ∧
      (setStep p2state "n" (WVal.wobj 40 (JValue.vobj [("a", JValue.vnum 1),
        ("u", JValue.vundefined), ("f", JValue.vfun 41)]))).1.refreshCount =
        p2state.refreshCount + 1 ∧
      (setStep p2state "n" (WVal.wobj 40 (JValue.vobj [("a", JValue.vnum 1),
        ("u", JValue.vundefined), ("f", JValue.vfun 41)]))).1.fns = p2state.fns) :=
  ⟨by decide,
    set_effective_write p2state "n" (WVal.wobj 40 (JValue.vobj [("a", JValue.vnum 1),
      ("u", JValue.vundefined), ("f", JValue.vfun 41)])) (by decide)⟩

/-- C6: a write through the proxy whose value is reference-identical to
the current value of the property is a complete no-op — target, proxy
cache, allocator and refresh counter are unchanged — and the trap still
reports success; moreover every write reports success (the `set` trap
has no rejection path). -/
theorem set_identical_noop (s : PState) (prop : String) (item : WVal) :
    (identEq (currentOf s prop) item = true → setStep s prop item = (s, true)) ∧
    (setStep s prop item).2 = true := by
  constructor
  · intro h
    simp [setStep, h]
  · by_cases h : identEq (currentOf s prop) item = true
    · simp [setStep, h]
    · simp [setStep, h]

/-- Witness for C6: writing the reference-identical object back to
`kid`. -/
theorem set_identical_noop_w :
    identEq (currentOf p2state "kid") (WVal.wobj 0 (JValue.vobj [])) = true ∧
    setStep p2state "kid" (WVal.wobj 0 (JValue.vobj [])) = (p2state, true) :=
  ⟨by decide,
    (set_identical_noop p2state "kid" (WVal.wobj 0 (JValue.vobj []))).1 (by decide)⟩

/-- C7: reading a function-typed property returns a fresh wrapper;
invoking it snapshots the target's serialization, runs the original
method on the target with the given arguments, fires the refresh
notification iff the post-call serialization differs from the pre-call
snapshot, and returns the call's result unchanged.  A serialization-
changing (mutating) method thus flips the dirty comparison, a
non-mutating one leaves state and refresh count untouched. -/
theorem method_wrapper_semantics (s : PState) (prop : String) (fe : FnEntry)
    (args : List WVal)
    (hm : alookup s.getMap prop = none)
    (hv : alookup s.vals prop = none)
    (hf : alookup s.fns prop = some fe) :
    (getStep s prop).1 = GetResult.wrapper s.nextId ∧
    (invokeFn (getStep s prop).2 fe args).1 = (fe.sem s.vals args).2 ∧
    (invokeFn (getStep s prop).2 fe args).2.vals = (fe.sem s.vals args).1 ∧
    ((stringifyVals (fe.sem s.vals args).1 ≠ stringifyVals s.vals) ↔
      (invokeFn (getStep s prop).2 fe args).2.refreshCount = s.refreshCount + 1) ∧
    (stringifyVals (fe.sem s.vals args).1 = stringifyVals s.vals →
      (invokeFn (getStep s prop).2 fe args).2.refreshCount = s.refreshCount) ∧
    (invokeFn (getStep s prop).2 fe args).2.getMap = s.getMap ∧
    (invokeFn (getStep s prop).2 fe args).2.fns = s.fns := by
  rw [getStep_fn s prop fe hm hv hf]
  by_cases hch : stringifyVals (fe.sem s.vals args).1 = stringifyVals s.vals
  · simp [invokeFn, hch, bne_iff_ne]
  · simp [invokeFn, hch, bne_iff_ne]

/-- C10: a function-typed property is never cached: reading it twice
leaves the per-key proxy cache untouched and returns two wrapper
functions that are not reference-identical (identity stability does not
extend to methods). -/
theorem method_read_uncached (s : PState) (prop : String) (fe : FnEntry)
    (hm : alookup s.getMap prop = none)
    (hv : alookup s.vals prop = none)
    (hf : alookup s.fns prop = some fe) :
    (getStep s prop).1 = GetResult.wrapper s.nextId ∧
    (getStep s prop).2.getMap = s.getMap ∧
    (getStep (getStep s prop).2 prop).1 = GetResult.wrapper (s.nextId + 1) ∧
    (getStep (getStep s prop).2 prop).2.getMap = s.getMap ∧
    (getStep s prop).1 ≠ (getStep (getStep s prop).2 prop).1 := by
  have e2 := getStep_fn { s with nextId := s.nextId + 1 } prop fe hm hv hf
  simp only [getStep_fn s prop fe hm hv hf, e2]
  refine ⟨trivial, trivial, trivial, trivial, by simp⟩

/-- Fixture: a push-like mutating method — appends a second entry to the
pseudo-array target and returns the new length. -/
def pushFn : FnEntry :=
  { r := 50
    sem := fun vs args => (vs ++ [("1", SVal.sprim (Prim.pnum 4))],
      WVal.wprim (Prim.pnum 2)) }

/-- Fixture: a proxy over a target with one element and a `push`
method. -/
def p7state : PState :=
  { vals := [("0", SVal.sprim (Prim.pnum 3))]
    fns := [("push", pushFn)]
    getMap := []
    nextId := 5
    refreshCount := 0 }

/-- Witness for C7 at the push fixture. -/
theorem method_wrapper_semantics_w :
    alookup p7state.getMap "push" = none ∧
    alookup p7state.vals "push" = none ∧
    alookup p7state.fns "push" = some pushFn ∧
    ((getStep p7state "push").1 = GetResult.wrapper p7state.nextId ∧
      (invokeFn (getStep p7state "push").2 pushFn []).1 = (pushFn.sem p7state.vals []).2 ∧
      (invokeFn (getStep p7state "push").2 pushFn []).2.vals = (pushFn.sem p7state.vals []).1 ∧
      ((stringifyVals (pushFn.sem p7state.vals []).1 ≠ stringifyVals p7state.vals) ↔
        (invokeFn (getStep p7state "push").2 pushFn []).2.refreshCount =
          p7state.refreshCount + 1) ∧
      (stringifyVals (pushFn.sem p7state.vals []).1 = stringifyVals p7state.vals →
        (invokeFn (getStep p7state "push").2 pushFn []).2.refreshCount =
          p7state.refreshCount) ∧
      (invokeFn (getStep p7state "push").2 pushFn []).2.getMap = p7state.getMap ∧
      (invokeFn (getStep p7state "push").2 pushFn []).2.fns = p7state.fns) :=
  ⟨rfl, rfl, rfl, method_wrapper_semantics p7state "push" pushFn [] rfl rfl rfl⟩

/-- Witness for C10 at the push fixture. -/
theorem method_read_uncached_w :
    alookup p7state.getMap "push" = none ∧
    alookup p7state.vals "push" = none ∧
    alookup p7state.fns "push" = some pushFn ∧
    ((getStep p7state "push").1 = GetResult.wrapper p7state.nextId ∧
      (getStep p7state "push").2.getMap = p7state.getMap ∧
      (getStep (getStep p7state "push").2 "push").1 = GetResult.wrapper (p7state.nextId + 1) ∧
      (getStep (getStep p7state "push").2 "push").2.getMap = p7state.getMap ∧
      (getStep p7state "push").1 ≠ (getStep (getStep p7state "push").2 "push").1) :=
  ⟨rfl, rfl, rfl, method_read_uncached p7state "push" pushFn rfl rfl rfl⟩
